import Mathlib

/-!
Shallow embedding of the `license_checker` package (crawl → extract → classify
pipeline) and verification of its specification claims.

Embedded modules:
* `license_checker/parameters.py`   — pattern registry and keyword lists
* `license_checker/license_identifier.py` — CC classification and mention extraction
* `license_checker/data_extractor.py`     — footer-link / relevant-text extraction
* `license_checker/request_manager.py`    — robots policy and page fetching
* `license_checker/license_detector.py`   — per-site pipeline and batch scan

External effects (HTTP, `validators.url`, `urlparse`, `urljoin`, BeautifulSoup
parsing, Protego robots parsing) are modelled as oracle parameters; everything
the repository itself computes is translated directly from the source.
Python strings are `String`; `None` arguments are the empty string where the
source only ever tests truthiness. All inputs of interest are ASCII, matching
Lean's ASCII `Char.toLower`.
-/

deriving instance DecidableEq for Except

namespace LC

/-! ## Python string primitives -/

/-- `pat.isPrefixOf hay` on character lists. -/
def listIsPrefix : List Char → List Char → Bool
  | [], _ => true
  | _ :: _, [] => false
  | a :: as, b :: bs => a == b && listIsPrefix as bs

/-- `pat in hay` (Python substring test) on character lists. -/
def listInfix (pat : List Char) : List Char → Bool
  | [] => listIsPrefix pat []
  | h :: t => listIsPrefix pat (h :: t) || listInfix pat t

/-- Python's `pat in hay` substring operator. -/
def strContains (hay pat : String) : Bool :=
  listInfix pat.data hay.data

/-- Python's `str.lower()` (ASCII; all subject strings here are ASCII). -/
def pyLower (s : String) : String :=
  String.mk (s.data.map Char.toLower)

/-- Python's `str.strip()`: drop leading and trailing whitespace. -/
def pyStrip (s : String) : String :=
  String.mk (((s.data.dropWhile Char.isWhitespace).reverse.dropWhile
    Char.isWhitespace).reverse)

/-- Worker for `pySplit`: `cur` is the current word, reversed. -/
def pySplitAux : List Char → List Char → List String
  | cur, [] => if cur = [] then [] else [String.mk cur.reverse]
  | cur, c :: rest =>
    if c.isWhitespace then
      if cur = [] then pySplitAux [] rest
      else String.mk cur.reverse :: pySplitAux [] rest
    else pySplitAux (c :: cur) rest

/-- Python's `str.split()` with no argument: split on whitespace runs,
dropping empty fragments. -/
def pySplit (s : String) : List String :=
  pySplitAux [] s.data

/-! ## A backtracking regex engine

The `re` patterns in `parameters.py` are compiled, with `re.IGNORECASE`, from
a small feature set: literals, character classes (`\s \w \d [-\s]`),
concatenation, ordered alternation, greedy `* + ? {0,n}`, and the `\b`
word-boundary assertion.  The engine below implements exactly Python's
backtracking semantics for that feature set: alternatives are tried left to
right, quantifiers are greedy, `search` returns the leftmost match, and the
whole match (`group(0)`) is the first success of the backtracking order.
`IGNORECASE` is realised by matching the lowercased subject against
lowercase-literal patterns.  The fuel argument only bounds recursion depth;
every quantifier body below consumes at least one character per iteration, so
a fuel of `(size + 2) * (length + 2)` can never be exhausted before the
search completes. -/

inductive RE where
  | eps : RE
  | lit : Char → RE
  | cls : (Char → Bool) → RE
  | cat : RE → RE → RE
  | alt : RE → RE → RE
  | star : RE → RE
  | wb : RE

namespace RE

/-- Literal string pattern. -/
def str (s : String) : RE :=
  s.data.foldr (fun c r => cat (lit c) r) eps

/-- Greedy `r+`. -/
def plus (r : RE) : RE := cat r (star r)

/-- Greedy `r?`. -/
def opt (r : RE) : RE := alt r eps

/-- Greedy `r{0,n}`. -/
def repUpTo (r : RE) : Nat → RE
  | 0 => eps
  | n + 1 => alt (cat r (repUpTo r n)) eps

/-- Structural size, used only to compute a sufficient fuel. -/
def size : RE → Nat
  | eps => 1
  | lit _ => 1
  | cls _ => 1
  | cat a b => size a + size b + 1
  | alt a b => size a + size b + 1
  | star a => size a + 1
  | wb => 1

end RE

/-- Python `\w` (ASCII fragment). -/
def isWordChar (c : Char) : Bool := c.isAlphanum || c == '_'

/-- Is position `i` of `s` a `\b` word boundary? -/
def wbAt (s : List Char) (i : Nat) : Bool :=
  let before := match i with
    | 0 => false
    | j + 1 => match s.get? j with
      | some c => isWordChar c
      | none => false
  let after := match s.get? i with
    | some c => isWordChar c
    | none => false
  before != after

/-- Backtracking matcher in continuation-passing style.  `reM fuel r s i k`
tries to match `r` at position `i` of `s` and calls `k` at each candidate end
position, in exactly Python's backtracking order; the first `some` wins. -/
def reM : Nat → RE → List Char → Nat → (Nat → Option Nat) → Option Nat
  | 0, _, _, _, _ => none
  | _ + 1, .eps, _, i, k => k i
  | _ + 1, .lit c, s, i, k =>
    match s.get? i with
    | some d => if d == c then k (i + 1) else none
    | none => none
  | _ + 1, .cls p, s, i, k =>
    match s.get? i with
    | some d => if p d then k (i + 1) else none
    | none => none
  | f + 1, .cat a b, s, i, k => reM f a s i (fun j => reM f b s j k)
  | f + 1, .alt a b, s, i, k => (reM f a s i k).orElse (fun _ => reM f b s i k)
  | f + 1, .star a, s, i, k =>
    (reM f a s i (fun j => if i < j then reM f (.star a) s j k else none)).orElse
      (fun _ => k i)
  | _ + 1, .wb, s, i, k => if wbAt s i then k i else none

/-- Fuel sufficient for the patterns in this development (no quantifier body
matches the empty string, so nesting depth is bounded by the pattern size per
consumed character). -/
def reFuel (r : RE) (s : List Char) : Nat :=
  (RE.size r + 2) * (s.length + 2)

/-- Leftmost search: try start positions `i, i+1, ...`; `rem` counts the
remaining candidate positions. -/
def reSearchGo (r : RE) (s : List Char) : Nat → Nat → Option (Nat × Nat)
  | 0, _ => none
  | rem + 1, i =>
    match reM (reFuel r s) r s i some with
    | some j => some (i, j)
    | none => reSearchGo r s rem (i + 1)

/-- `pattern.search(text)` under `re.IGNORECASE`: returns the span of the
leftmost match against the lowercased subject, or `none`. -/
def reSearch (r : RE) (text : String) : Option (Nat × Nat) :=
  let s := (pyLower text).data
  reSearchGo r s (s.length + 1) 0

/-- `pattern.search(text).group(0)` under `re.IGNORECASE` (the matched
substring of the lowercased subject — every caller in the source either
already lowercased the subject or discards the text). -/
def patSearch (r : RE) (text : String) : Option String :=
  let s := (pyLower text).data
  match reSearchGo r s (s.length + 1) 0 with
  | some (i, j) => some (String.mk ((s.drop i).take (j - i)))
  | none => none

/-! ## `parameters.py` — the pattern registry -/

/-- `[-\s]` / `[\s-]`. -/
def sepHS : RE := RE.cls (fun c => c.isWhitespace || c == '-')

/-- `\s`. -/
def wsC : RE := RE.cls Char.isWhitespace

/-- `\d`. -/
def digitC : RE := RE.cls Char.isDigit

/-- `v?\d+(?:\.\d+)?` (shared by the Apache and GPL patterns). -/
def numRE : RE :=
  RE.cat (RE.opt (RE.lit 'v'))
    (RE.cat (RE.plus digitC) (RE.opt (RE.cat (RE.lit '.') (RE.plus digitC))))

/-- `LICENSE_PATTERNS["MIT License"]`:
`\bMIT[-\s]+(?:\w+\s+){0,3}(?:License|Variant)`. -/
def mitPattern : RE :=
  RE.cat RE.wb
    (RE.cat (RE.str "mit")
      (RE.cat (RE.plus sepHS)
        (RE.cat (RE.repUpTo (RE.cat (RE.plus (RE.cls isWordChar)) (RE.plus wsC)) 3)
          (RE.alt (RE.str "license") (RE.str "variant")))))

/-- `LICENSE_PATTERNS["Apache License"]`:
`\bApache[-\s]+(?:License[-\s]*(?:v?\d+(?:\.\d+)?)?|(?:v?\d+(?:\.\d+)?))\b`. -/
def apachePattern : RE :=
  RE.cat RE.wb
    (RE.cat (RE.str "apache")
      (RE.cat (RE.plus sepHS)
        (RE.cat
          (RE.alt (RE.cat (RE.str "license") (RE.cat (RE.star sepHS) (RE.opt numRE)))
            numRE)
          RE.wb)))

/-- CC attribute alternation of the `CC`-prefixed branch, in source order:
`(?:BY|Attribution|SA|Share[\s-]?Alike|NC|Non[\s-]?Commercial|ND|No[\s-]?Derivatives)`. -/
def ccAttr1 : RE :=
  RE.alt (RE.str "by")
    (RE.alt (RE.str "attribution")
      (RE.alt (RE.str "sa")
        (RE.alt (RE.cat (RE.str "share") (RE.cat (RE.opt sepHS) (RE.str "alike")))
          (RE.alt (RE.str "nc")
            (RE.alt (RE.cat (RE.str "non") (RE.cat (RE.opt sepHS) (RE.str "commercial")))
              (RE.alt (RE.str "nd")
                (RE.cat (RE.str "no") (RE.cat (RE.opt sepHS) (RE.str "derivatives")))))))))

/-- CC attribute alternation of the `Creative Commons` branch, in source order:
`(?:Attribution|Share[\s-]?Alike|Non[\s-]?Commercial|No[\s-]?Derivatives|BY|SA|NC|ND)`. -/
def ccAttr2 : RE :=
  RE.alt (RE.str "attribution")
    (RE.alt (RE.cat (RE.str "share") (RE.cat (RE.opt sepHS) (RE.str "alike")))
      (RE.alt (RE.cat (RE.str "non") (RE.cat (RE.opt sepHS) (RE.str "commercial")))
        (RE.alt (RE.cat (RE.str "no") (RE.cat (RE.opt sepHS) (RE.str "derivatives")))
          (RE.alt (RE.str "by")
            (RE.alt (RE.str "sa") (RE.alt (RE.str "nc") (RE.str "nd")))))))

/-- `(?:\d\.\d)` — the optional single version number. -/
def ccVer : RE := RE.cat digitC (RE.cat (RE.lit '.') digitC)

/-- `LICENSE_PATTERNS["Creative Commons (CC)"]`, three ordered branches
wrapped in `\b ... \b`. -/
def ccPattern : RE :=
  RE.cat RE.wb
    (RE.cat
      (RE.alt
        (RE.cat (RE.str "cc")
          (RE.cat (RE.plus sepHS)
            (RE.cat (RE.plus (RE.cat ccAttr1 (RE.opt sepHS))) (RE.opt ccVer))))
        (RE.alt
          (RE.cat (RE.str "creative")
            (RE.cat (RE.plus sepHS)
              (RE.cat (RE.str "commons")
                (RE.cat (RE.star sepHS)
                  (RE.cat (RE.star (RE.cat ccAttr2 (RE.star sepHS))) (RE.opt ccVer))))))
          (RE.str "cc0")))
      RE.wb)

/-- `LICENSE_PATTERNS["GNU GPL"]`:
`\b(?:GNU[\s-]+(?:A|L)?GPL|(?:A|L)?GPL[\s-]*(?:v?\d+(?:\.\d+)?)|General\s+Public\s+License)\b`. -/
def gplPattern : RE :=
  RE.cat RE.wb
    (RE.cat
      (RE.alt
        (RE.cat (RE.str "gnu")
          (RE.cat (RE.plus sepHS)
            (RE.cat (RE.opt (RE.alt (RE.lit 'a') (RE.lit 'l'))) (RE.str "gpl"))))
        (RE.alt
          (RE.cat (RE.opt (RE.alt (RE.lit 'a') (RE.lit 'l')))
            (RE.cat (RE.str "gpl") (RE.cat (RE.star sepHS) numRE)))
          (RE.cat (RE.str "general")
            (RE.cat (RE.plus wsC)
              (RE.cat (RE.str "public") (RE.cat (RE.plus wsC) (RE.str "license")))))))
      RE.wb)

/-- `LICENSE_PATTERNS["BSD License"]`:
`\bBSD[\s-]+(?:\d+[\s-]Clause|License)\b`. -/
def bsdPattern : RE :=
  RE.cat RE.wb
    (RE.cat (RE.str "bsd")
      (RE.cat (RE.plus sepHS)
        (RE.cat
          (RE.alt (RE.cat (RE.plus digitC) (RE.cat sepHS (RE.str "clause")))
            (RE.str "license"))
          RE.wb)))

/-- `LICENSE_PATTERNS`, in dict (insertion) order. -/
def LICENSE_PATTERNS : List (String × RE) :=
  [("MIT License", mitPattern),
   ("Apache License", apachePattern),
   ("Creative Commons (CC)", ccPattern),
   ("GNU GPL", gplPattern),
   ("BSD License", bsdPattern)]

/-- `CC_VERSIONS`. -/
def CC_VERSIONS : List String := ["1.0", "2.0", "2.5", "3.0", "4.0"]

/-- `CC_TYPES`. -/
def CC_TYPES : List String :=
  ["BY", "BY-SA", "BY-ND", "BY-NC", "BY-NC-SA", "BY-NC-ND"]

/-- `CC_TYPE_MAP`, in source order. -/
def CC_TYPE_MAP : List (String × String) :=
  [("attribution", "BY"), ("by", "BY"),
   ("noncommercial", "NC"), ("non-commercial", "NC"), ("nc", "NC"),
   ("sharealike", "SA"), ("share-alike", "SA"), ("sa", "SA"),
   ("noderivatives", "ND"), ("no-derivatives", "ND"), ("nd", "ND")]

/-- `RELEVANT_LINKS_KEYWORDS`.  In the Python source the adjacent string
literals `"licensing"` and `"use"` carry no separating comma, so the language
concatenates them into the single element `"licensinguse"`; the list Python
actually builds has six elements. -/
def RELEVANT_LINKS_KEYWORDS : List String :=
  ["terms", "legal", "license", "licensinguse", "policy", "copyright"]

/-- `RELEVANT_TEXT_KEYWORDS`. -/
def RELEVANT_TEXT_KEYWORDS : List String :=
  ["intellectual property", "right", "authorised", "commercial use",
   "non-commercial use", "fair use", "license", "copyright",
   "creative commons", "cc by", "gpl", "apache", "mit", "bsd"]

/-! ## `license_identifier.py` — `LicenseIdentifier` -/

/-- `LicenseIdentifier._check_for_cc0`. -/
def check_for_cc0 (url_lower text_lower : String) : Option String :=
  if strContains url_lower "publicdomain/zero" || strContains text_lower "cc0" ||
      strContains text_lower "creative commons zero" then
    some "CC0"
  else
    none

/-- `LicenseIdentifier._extract_license_from_url`: the outer loop runs over
`CC_VERSIONS`, the inner loop over `CC_TYPES`; the first combination whose
`licenses/{type}/{version}` substring occurs in the URL wins. -/
def extract_license_from_url (url_lower : String) : Option String :=
  CC_VERSIONS.findSome? fun version =>
    CC_TYPES.findSome? fun cc_type =>
      if strContains url_lower ("licenses/" ++ pyLower cc_type ++ "/" ++ version) then
        some ("CC-" ++ cc_type ++ "-" ++ version)
      else
        none

/-- Dict lookup in `CC_TYPE_MAP`. -/
def lookupTypeMap (w : String) : Option String :=
  (CC_TYPE_MAP.find? (fun p => p.1 == w)).map (fun p => p.2)

/-- `LicenseIdentifier._process_cc_type_text`: lowercase, replace `-` by a
space, split on whitespace, map words through `CC_TYPE_MAP` (keeping
`CC_VERSIONS` members verbatim, dropping everything else), join with `-`. -/
def process_cc_type_text (type_str : String) : String :=
  if type_str = "" then ""
  else
    let t := String.mk ((pyLower type_str).data.map (fun c => if c == '-' then ' ' else c))
    let mapped := (pySplit t).filterMap (fun word =>
      match lookupTypeMap word with
      | some m => some m
      | none => if word ∈ CC_VERSIONS then some word else none)
    String.intercalate "-" mapped

/-- `LicenseIdentifier._extract_license_from_text`. -/
def extract_license_from_text (text_lower : String) : Option String :=
  match patSearch ccPattern text_lower with
  | none => none
  | some matched_text =>
    let cc_type := process_cc_type_text matched_text
    if cc_type = "" then none else some ("CC-" ++ cc_type)

/-- `LicenseIdentifier.determine_cc_license`. -/
def determine_cc_license (url text : String) : String :=
  if url = "" ∧ text = "" then "Unknown"
  else
    match check_for_cc0 (pyLower url) (pyLower text) with
    | some s => s
    | none =>
      match extract_license_from_url (pyLower url) with
      | some s => s
      | none =>
        match extract_license_from_text (pyLower text) with
        | some s => s
        | none => "Unknown"

/-- `LicenseIdentifier.extract_licenses`: every family whose pattern matches
somewhere in the text.  The source collects names into a `set` and returns
`list(set)`; since the five names are distinct the set's elements are exactly
the matching names, modelled here in registry order (claims about the result
are membership claims). -/
def extract_licenses (text : String) : List String :=
  if text = "" then []
  else (LICENSE_PATTERNS.filter (fun p => (patSearch p.2 text).isSome)).map (fun p => p.1)

/-! ## `data_extractor.py` — `DataExtractor` -/

/-- An HTML anchor as `extract_footer_links` consumes it: the `href`
attribute (`none` when absent) and the anchor's visible text
(`link.get_text()`, before `.strip()`). -/
structure Anchor where
  href : Option String
  text : String
deriving DecidableEq

/-- `href` with the absent case collapsed to `""`; the source skips an anchor
exactly when this is empty (`if not href: continue`). -/
def hrefD (a : Anchor) : String := a.href.getD ""

/-- `DataExtractor._contains_keyword`. -/
def contains_keyword (text : String) (keywords : List String) : Bool :=
  if text = "" ∨ keywords = [] then false
  else keywords.any (fun kw => strContains (pyLower text) (pyLower kw))

/-- `DataExtractor._contains_pattern` (returns on the first matching
pattern). -/
def contains_pattern (text : String) (patterns : List (String × RE)) : Bool :=
  if text = "" then false
  else if patterns.isEmpty then false
  else patterns.any (fun p => (patSearch p.2 text).isSome)

/-- `set.add` on the model of a Python set: an order-preserving
duplicate-free list (the set's own enumeration order is unspecified; every
claim about it is a membership claim). -/
def insertLink (s : List String) (u : String) : List String :=
  if u ∈ s then s else s ++ [u]

/-- The anchor loop of `DataExtractor.extract_footer_links`, threading
`(license_link, license_text, relevant_links)` through the anchors of all
footers in document order.  `ujoin` is the `urllib.parse.urljoin` oracle.
The source's `if not href: continue` skips exactly the anchors with an
absent or empty `href`, i.e. those with `hrefD a = ""`; for every other
anchor `absolute_url = urljoin(base_url, href)` and
`text = link.get_text().strip()`. -/
def eflGo (ujoin : String → String → String) (base_url : String) :
    List Anchor → String → String → List String → String × String × List String
  | [], ll, lt, rls => (ll, lt, rls)
  | a :: rest, ll, lt, rls =>
    if hrefD a = "" then eflGo ujoin base_url rest ll lt rls
    else if ll = "" ∧ contains_pattern (pyStrip a.text) LICENSE_PATTERNS then
      eflGo ujoin base_url rest (ujoin base_url (hrefD a)) (pyStrip a.text) rls
    else if contains_keyword (pyStrip a.text) RELEVANT_LINKS_KEYWORDS then
      eflGo ujoin base_url rest ll lt (insertLink rls (ujoin base_url (hrefD a)))
    else
      eflGo ujoin base_url rest ll lt rls

/-- `DataExtractor.extract_footer_links`.  A parsed document is the list of
its `footer` elements, each the list of its anchors, in document order; the
nested `for footer / for link` loops traverse their concatenation. -/
def extract_footer_links (ujoin : String → String → String)
    (doc : List (List Anchor)) (base_url : String) : String × String × List String :=
  if base_url = "" then ("", "", [])
  else eflGo ujoin base_url doc.flatten "" "" []

/-! ## `request_manager.py` — `RequestManager` -/

/-- Outcome of one `requests` GET: a raised exception (network failure,
timeout) or a response with a status code and body. -/
inductive HttpOutcome where
  | exn : String → HttpOutcome
  | resp : Nat → String → HttpOutcome

/-- `RequestManager.fetch_page`.  The source calls `raise_for_status()` with
no surrounding `try`, so a raised exception or a 4xx/5xx status propagates to
the caller as an `Except.error`; only a falsy `url` yields `None`. -/
def fetch_page (net : String → HttpOutcome) (url : String) :
    Except String (Option String) :=
  if url = "" then .ok none
  else
    match net url with
    | .exn m => .error m
    | .resp status body =>
      if 400 ≤ status ∧ status < 600 then .error ("HTTP error " ++ toString status)
      else .ok (some body)

/-- `RequestManager.fetch_robots`: both exception branches are caught and
yield `None`; a non-200 status yields `None`; `parseRobots` is the
`Protego.parse` oracle, `none` standing for a raised parse error (caught by
the same handlers).  A parsed robots file is modelled by its
`can_fetch(url, user_agent)` verdict function. -/
def fetch_robots (ujoin : String → String → String) (net : String → HttpOutcome)
    (parseRobots : String → Option (String → String → Bool)) (url : String) :
    Option (String → String → Bool) :=
  match net (ujoin url "/robots.txt") with
  | .exn _ => none
  | .resp status body => if status = 200 then parseRobots body else none

/-- `RequestManager.is_allowed_by_robots`. -/
def is_allowed_by_robots (ujoin : String → String → String)
    (net : String → HttpOutcome) (parseRobots : String → Option (String → String → Bool))
    (user_agent url : String) : Bool :=
  if url = "" then false
  else
    match fetch_robots ujoin net parseRobots url with
    | some can_fetch => can_fetch url user_agent
    | none => true

/-- The per-link loop of `DataExtractor.process_relevant_links`, returning
the collected non-empty extracted texts.  `extractRel` is the composition of
`parse_html` and `extract_relevant_text` on a (truthy) body.  A fetch
exception propagates. -/
def prlGo (net : String → HttpOutcome) (extractRel : String → String) :
    List String → Except String (List String)
  | [] => .ok []
  | link :: rest =>
    match fetch_page net link with
    | .error e => .error e
    | .ok content =>
      match prlGo net extractRel rest with
      | .error e => .error e
      | .ok pieces =>
        match content with
        | none => .ok pieces
        | some body =>
          if body = "" then .ok pieces
          else
            let extracted := extractRel body
            if extracted = "" then .ok pieces else .ok (extracted :: pieces)

/-- `DataExtractor.process_relevant_links` (`" ".join(combined_content)`;
the `time.sleep` politeness delay has no effect on the value). -/
def process_relevant_links (net : String → HttpOutcome)
    (extractRel : String → String) (links : List String) : Except String String :=
  if links = [] then .ok ""
  else (prlGo net extractRel links).map (String.intercalate " ")

/-! ## `license_detector.py` — `LicenseDetector` -/

/-- The per-site result dict of `_process_website`, with its initial field
values as defaults.  `error` never appears here: an error record is a
separate dict shape (`ScanRecord.failed`). -/
structure Result where
  website : String
  invalidUrl : Bool := false
  blockedByRobotsTxt : Bool := false
  licenseLink : Option String := none
  licenseType : Option String := none
  relevantLinks : List String := []
  licenseMentions : List String := []
  content : Option String := none
deriving DecidableEq

/-- The environment of one `LicenseDetector`: every external library call
the per-site pipeline makes, in oracle form.
* `validUrl` — `validators.url`
* `normalize` — `_normalize_url` (scheme://netloc via `urlparse`)
* `ujoin` — `urllib.parse.urljoin`
* `net` — one HTTP GET (shared by robots, primary and secondary fetches)
* `parseRobots` — `Protego.parse` (`none` = raised parse error)
* `parseHtml` — `BeautifulSoup` for the primary page, as footers/anchors
* `extractRel` — `parse_html` ∘ `extract_relevant_text` for a secondary body
-/
structure Oracles where
  validUrl : String → Bool
  normalize : String → String
  ujoin : String → String → String
  net : String → HttpOutcome
  parseRobots : String → Option (String → String → Bool)
  userAgent : String
  parseHtml : String → Option (List (List Anchor))
  extractRel : String → String

/-- `LicenseDetector._process_website`.  An uncaught exception (only the
fetches raise in this model) surfaces as `Except.error`. -/
def process_website (o : Oracles) (url : String) : Except String Result :=
  let result : Result := { website := url }
  if ¬ o.validUrl url then .ok { result with invalidUrl := true }
  else
    let base_url := o.normalize url
    if ¬ is_allowed_by_robots o.ujoin o.net o.parseRobots o.userAgent base_url then
      .ok { result with blockedByRobotsTxt := true }
    else
      match fetch_page o.net url with
      | .error e => .error e
      | .ok none => .ok result
      | .ok (some body) =>
        if body = "" then .ok result
        else
          match o.parseHtml body with
          | none => .ok result
          | some soup =>
            let efl := extract_footer_links o.ujoin soup url
            let license_link := efl.1
            let license_text := efl.2.1
            let relevant_links := efl.2.2
            let license_type := determine_cc_license license_link license_text
            match process_relevant_links o.net o.extractRel relevant_links with
            | .error e => .error e
            | .ok content =>
              let license_mentions := extract_licenses content
              let license_type' :=
                if license_type = "Unknown" then determine_cc_license "" content
                else license_type
              .ok { website := url,
                    licenseLink := some license_link,
                    licenseType := some license_type',
                    relevantLinks := relevant_links,
                    licenseMentions := license_mentions,
                    content := some content }

/-- One element of the list `scan_websites` builds: either the full result
dict, or the two-key error dict `{"website": url, "error": str(e)}` built in
the `except` handler. -/
inductive ScanRecord where
  | done : Result → ScanRecord
  | failed : (website : String) → (error : String) → ScanRecord
deriving DecidableEq

/-- `LicenseDetector.scan_websites`: one record per input, in input order;
a per-site exception is caught and recorded as a `failed` record. -/
def scan_websites (o : Oracles) : List String → List ScanRecord
  | [] => []
  | url :: rest =>
    (match process_website o url with
     | .ok r => ScanRecord.done r
     | .error e => ScanRecord.failed url e) :: scan_websites o rest

/-! ## Comparison definitions and concrete environments -/

/-- The URL scan in the order claim C5 asserts (type-major, version-minor):
the comparison point for `extract_license_from_url`, which the source runs
version-major, type-minor. -/
def extract_license_from_url_spec (url_lower : String) : Option String :=
  CC_TYPES.findSome? fun cc_type =>
    CC_VERSIONS.findSome? fun version =>
      if strContains url_lower ("licenses/" ++ pyLower cc_type ++ "/" ++ version) then
        some ("CC-" ++ cc_type ++ "-" ++ version)
      else
        none

/-- The 30 version/type combinations in the order the source's nested loops
visit them: outer loop `CC_VERSIONS`, inner loop `CC_TYPES`. -/
def ccURLPairs : List (String × String) :=
  [("1.0", "BY"), ("1.0", "BY-SA"), ("1.0", "BY-ND"), ("1.0", "BY-NC"),
   ("1.0", "BY-NC-SA"), ("1.0", "BY-NC-ND"),
   ("2.0", "BY"), ("2.0", "BY-SA"), ("2.0", "BY-ND"), ("2.0", "BY-NC"),
   ("2.0", "BY-NC-SA"), ("2.0", "BY-NC-ND"),
   ("2.5", "BY"), ("2.5", "BY-SA"), ("2.5", "BY-ND"), ("2.5", "BY-NC"),
   ("2.5", "BY-NC-SA"), ("2.5", "BY-NC-ND"),
   ("3.0", "BY"), ("3.0", "BY-SA"), ("3.0", "BY-ND"), ("3.0", "BY-NC"),
   ("3.0", "BY-NC-SA"), ("3.0", "BY-NC-ND"),
   ("4.0", "BY"), ("4.0", "BY-SA"), ("4.0", "BY-ND"), ("4.0", "BY-NC"),
   ("4.0", "BY-NC-SA"), ("4.0", "BY-NC-ND")]

/-- A concrete network for the error-path evaluations: `http://b` raises,
`http://d` answers 404, everything else (including every robots.txt URL)
answers 200 with an empty body. -/
def demoNet : String → HttpOutcome := fun u =>
  if u = "http://b" then .exn "boom"
  else if u = "http://d" then .resp 404 "not found"
  else .resp 200 ""

/-- A concrete environment: every URL is valid, normalisation is the
identity, robots.txt always fails to parse (policy fails open), primary
bodies never parse into footers. -/
def demoOracles : Oracles where
  validUrl := fun _ => true
  normalize := fun u => u
  ujoin := fun a b => a ++ b
  net := demoNet
  parseRobots := fun _ => none
  userAgent := "MyCrawler/1.0"
  parseHtml := fun _ => none
  extractRel := fun _ => ""

/-- `demoOracles` with `validators.url` rejecting every input. -/
def demoInvalidOracles : Oracles :=
  { demoOracles with validUrl := fun _ => false }

/-- A concrete network for the secondary-link evaluations: `http://l1`
raises, `http://l2` answers with body `body2`. -/
def demoNet3 : String → HttpOutcome := fun u =>
  if u = "http://l1" then .exn "neterr"
  else .resp 200 "body2"

/-- A concrete secondary-page extractor: `body2` holds one relevant
sentence. -/
def demoExtract : String → String := fun b =>
  if b = "body2" then "legal text" else ""

/-! ## General lemmas -/

/-- Nested first-match scans coincide with a single scan over the pair list
in lexicographic (outer-major) order. -/
theorem findSome?_nested {α β γ : Type} (l₁ : List α) (l₂ : List β)
    (f : α → β → Option γ) :
    (l₁.flatMap (fun a => l₂.map (fun b => (a, b)))).findSome?
        (fun p => f p.1 p.2) =
      l₁.findSome? (fun a => l₂.findSome? (f a)) := by
  induction l₁ with
  | nil => rfl
  | cons a t ih =>
    rw [List.flatMap_cons, List.findSome?_append, ih, List.findSome?_map]
    cases h : l₂.findSome? (f a) with
    | none =>
      simp only [List.findSome?_cons]
      rw [show (fun p => f (Prod.fst p) (Prod.snd p)) ∘ (fun b => (a, b)) = f a from rfl]
      rw [h, Option.none_or]
    | some c =>
      simp only [List.findSome?_cons]
      rw [show (fun p => f (Prod.fst p) (Prod.snd p)) ∘ (fun b => (a, b)) = f a from rfl]
      rw [h]
      rfl

/-! ## Claim theorems -/

/-- C1: whenever the lowercased URL contains `publicdomain/zero` or the
lowercased text contains `cc0` or `creative commons zero`,
`determine_cc_license` classifies `"CC0"`, whatever else the URL or text
would match — the CC0 check runs before the URL-pattern and text-pattern
stages, so it takes precedence over every other classification signal. -/
theorem c1_cc0_precedence (url text : String)
    (h : strContains (pyLower url) "publicdomain/zero" = true ∨
         strContains (pyLower text) "cc0" = true ∨
         strContains (pyLower text) "creative commons zero" = true) :
    determine_cc_license url text = "CC0" := by
  have hguard : ¬(url = "" ∧ text = "") := by
    rintro ⟨rfl, rfl⟩
    rcases h with h | h | h <;> exact absurd h (by decide)
  have hcc0 : check_for_cc0 (pyLower url) (pyLower text) = some "CC0" := by
    unfold check_for_cc0
    rcases h with h | h | h <;> simp [h]
  unfold determine_cc_license
  rw [if_neg hguard, hcc0]

/-- Witness for C1 at a URL that also matches the `licenses/{type}/{version}`
pattern: CC0 still wins. -/
theorem c1_witness :
    determine_cc_license
      "https://creativecommons.org/publicdomain/zero/licenses/by/4.0/" "" = "CC0" :=
  c1_cc0_precedence _ _ (Or.inl (by decide))

/-- C5 counterexample: on a URL containing both `licenses/by-sa/1.0` and
`licenses/by/2.0`, the claimed type-major, version-minor scan would return
`CC-BY-2.0`, but the code scans version-major (outer `CC_VERSIONS` loop,
inner `CC_TYPES` loop) and returns `CC-BY-SA-1.0`. -/
theorem c5_counterexample :
    extract_license_from_url "x licenses/by-sa/1.0 licenses/by/2.0" =
      some "CC-BY-SA-1.0" ∧
    extract_license_from_url_spec "x licenses/by-sa/1.0 licenses/by/2.0" =
      some "CC-BY-2.0" ∧
    determine_cc_license "x licenses/by-sa/1.0 licenses/by/2.0" "" =
      "CC-BY-SA-1.0" := by
  refine ⟨by decide, by decide, by decide⟩

/-- C5 amended: the URL-pattern stage scans the 30 type/version combinations
in version-major, type-minor order (the order of `ccURLPairs`), and the first
combination whose `licenses/{type}/{version}` substring occurs in the
lowercased URL yields `CC-{type}-{version}`. -/
theorem c5_version_major_scan (url_lower : String) :
    extract_license_from_url url_lower =
      ccURLPairs.findSome? (fun p =>
        if strContains url_lower ("licenses/" ++ pyLower p.2 ++ "/" ++ p.1) then
          some ("CC-" ++ p.2 ++ "-" ++ p.1)
        else none) := by
  have hp : ccURLPairs = CC_VERSIONS.flatMap (fun v => CC_TYPES.map (fun t => (v, t))) := by
    decide
  rw [hp]
  exact (findSome?_nested CC_VERSIONS CC_TYPES (fun version cc_type =>
    if strContains url_lower ("licenses/" ++ pyLower cc_type ++ "/" ++ version) then
      some ("CC-" ++ cc_type ++ "-" ++ version)
    else none)).symm

/-- C7 (Scenario C): for the body text
`"Creative Commons Attribution-ShareAlike 4.0"`, the mention extractor finds
the Creative Commons family, and `determine_cc_license("", text)` maps the
matched substring's tokens (`attribution → BY`, `sharealike → SA`, version
`4.0` verbatim) in source order, joined with `-`. -/
theorem c7_scenario_c :
    "Creative Commons (CC)" ∈
      extract_licenses "Creative Commons Attribution-ShareAlike 4.0" ∧
    determine_cc_license "" "Creative Commons Attribution-ShareAlike 4.0" =
      "CC-BY-SA-4.0" := by
  refine ⟨by decide, by decide⟩

/-- C3: the code does not swallow a failed secondary-link fetch.
`fetch_page` raises (its `raise_for_status()` call and the GET itself run
outside any `try`), and `process_relevant_links` has no handler either, so a
network error on one relevant link aborts the whole aggregation with an
exception instead of skipping the link; only when every fetch succeeds is
the join of the successfully extracted texts returned. -/
theorem c3_link_failure_escalates :
    process_relevant_links demoNet3 demoExtract ["http://l1", "http://l2"] =
      .error "neterr" ∧
    process_relevant_links demoNet3 demoExtract ["http://l2", "http://l1"] =
      .error "neterr" ∧
    process_relevant_links demoNet3 demoExtract ["http://l2", "http://l2"] =
      .ok "legal text legal text" := by
  refine ⟨by decide, by decide, by decide⟩

/-- C2: the code does not catch primary-fetch failures inside the per-site
pipeline.  `fetch_page` raises on a network error and on a 4xx/5xx status
(contrary to its docstring, which promises `None` on failure), the exception
escapes `_process_website`, and `scan_websites` records the two-key error
dict — so a failed primary fetch yields an error record, not a `Done` result
with default fields.  Only an *empty* 200 body yields the default record. -/
theorem c2_fetch_failure_surfaces :
    scan_websites demoOracles ["http://a", "http://b", "http://d"] =
      [ScanRecord.done { website := "http://a" },
       ScanRecord.failed "http://b" "boom",
       ScanRecord.failed "http://d" "HTTP error 404"] := by
  decide

/-- Record `j` of a batch scan is determined by site `j` alone. -/
theorem scan_websites_get? (o : Oracles) (sites : List String) (j : Nat) :
    (scan_websites o sites)[j]? = (sites[j]?).map (fun url =>
      match process_website o url with
      | .ok r => ScanRecord.done r
      | .error e => ScanRecord.failed url e) := by
  induction sites generalizing j with
  | nil => simp [scan_websites]
  | cons u rest ih =>
    cases j with
    | zero => simp [scan_websites]
    | succ n => simpa [scan_websites] using ih n

/-- A batch scan emits exactly one record per input. -/
theorem scan_websites_length_eq (o : Oracles) (sites : List String) :
    (scan_websites o sites).length = sites.length := by
  induction sites with
  | nil => rfl
  | cons u rest ih => simp [scan_websites, ih]

/-- C6: the batch scan returns one record per input site, in input order;
when exactly one site raises an unhandled error, only that site's record is
the error record (carrying the site's website string), and every other
record is the untouched per-site result. -/
theorem c6_batch_isolation (o : Oracles) (sites : List String) (i : Nat)
    (e : String) (hi : i < sites.length)
    (herr : process_website o sites[i] = .error e)
    (hok : ∀ j (hj : j < sites.length), j ≠ i →
      (process_website o sites[j]).isOk = true) :
    (scan_websites o sites).length = sites.length ∧
    (scan_websites o sites)[i]? = some (ScanRecord.failed sites[i] e) ∧
    (∀ j (hj : j < sites.length), j ≠ i →
      ∃ r, process_website o sites[j] = .ok r ∧
        (scan_websites o sites)[j]? = some (ScanRecord.done r)) := by
  refine ⟨scan_websites_length_eq o sites, ?_, ?_⟩
  · rw [scan_websites_get?, List.getElem?_eq_getElem hi]
    simp [herr]
  · intro j hj hne
    have hj' := hok j hj hne
    cases hpw : process_website o sites[j] with
    | error e' => rw [hpw] at hj'; simp [Except.isOk, Except.toBool] at hj'
    | ok r =>
      refine ⟨r, rfl, ?_⟩
      rw [scan_websites_get?, List.getElem?_eq_getElem hj]
      simp [hpw]

/-- Witness for C6: three sites of which exactly the middle one raises. -/
theorem c6_witness :
    (scan_websites demoOracles ["http://a", "http://b", "http://c"]).length = 3 ∧
    (scan_websites demoOracles ["http://a", "http://b", "http://c"])[1]? =
      some (ScanRecord.failed "http://b" "boom") := by
  have H := c6_batch_isolation demoOracles ["http://a", "http://b", "http://c"]
    1 "boom" (by decide) (by decide) (by decide)
  exact ⟨H.1, H.2.1⟩

/-- C8: for a non-empty base URL the robots policy fails open — a raised
GET, a non-200 status, or a raised `Protego.parse` all yield a `None` robots
object and an allow verdict; a block verdict can only come from a
successfully retrieved and parsed robots.txt. -/
theorem c8_robots_fails_open (ujoin : String → String → String)
    (net : String → HttpOutcome)
    (parseRobots : String → Option (String → String → Bool))
    (user_agent url : String) (hurl : url ≠ "") :
    (fetch_robots ujoin net parseRobots url = none →
      is_allowed_by_robots ujoin net parseRobots user_agent url = true) ∧
    (∀ m, net (ujoin url "/robots.txt") = .exn m →
      is_allowed_by_robots ujoin net parseRobots user_agent url = true) ∧
    (∀ status body, net (ujoin url "/robots.txt") = .resp status body →
      status ≠ 200 ∨ parseRobots body = none →
      is_allowed_by_robots ujoin net parseRobots user_agent url = true) ∧
    (is_allowed_by_robots ujoin net parseRobots user_agent url = false →
      ∃ can_fetch, fetch_robots ujoin net parseRobots url = some can_fetch ∧
        can_fetch url user_agent = false) := by
  have hnone : fetch_robots ujoin net parseRobots url = none →
      is_allowed_by_robots ujoin net parseRobots user_agent url = true := by
    intro h
    unfold is_allowed_by_robots
    rw [if_neg hurl, h]
  refine ⟨hnone, ?_, ?_, ?_⟩
  · intro m hm
    apply hnone
    unfold fetch_robots
    rw [hm]
  · intro status body hresp hfail
    apply hnone
    unfold fetch_robots
    rw [hresp]
    show (if status = 200 then parseRobots body else none) = none
    rcases hfail with hs | hp
    · rw [if_neg hs]
    · rw [hp]
      split <;> rfl
  · intro hfalse
    unfold is_allowed_by_robots at hfalse
    rw [if_neg hurl] at hfalse
    cases hfr : fetch_robots ujoin net parseRobots url with
    | none => rw [hfr] at hfalse; simp at hfalse
    | some can_fetch =>
      rw [hfr] at hfalse
      exact ⟨can_fetch, rfl, hfalse⟩

/-- Witness for C8: a network that always raises still yields an allow. -/
theorem c8_witness :
    is_allowed_by_robots (fun a b => a ++ b) (fun _ => HttpOutcome.exn "down")
      (fun _ => none) "MyCrawler/1.0" "http://x" = true :=
  (c8_robots_fails_open (fun a b => a ++ b) (fun _ => HttpOutcome.exn "down")
    (fun _ => none) "MyCrawler/1.0" "http://x" (by decide)).2.1 "down" rfl

/-- `"CC-" ++ x` starts with `"CC"`. -/
theorem cc_prefix_shape (x : String) : ∃ rest, "CC-" ++ x = "CC" ++ rest := by
  refine ⟨"-" ++ x, ?_⟩
  rw [show ("CC-" : String) = "CC" ++ "-" by decide, String.append_assoc]

/-- `"CC-" ++ t ++ "-" ++ v` starts with `"CC"`. -/
theorem cc_url_shape (t v : String) :
    ∃ rest, "CC-" ++ t ++ "-" ++ v = "CC" ++ rest := by
  refine ⟨"-" ++ t ++ "-" ++ v, ?_⟩
  rw [show ("CC-" : String) = "CC" ++ "-" by decide,
    String.append_assoc "CC" "-" t, String.append_assoc "CC" ("-" ++ t) "-",
    String.append_assoc "CC" ("-" ++ t ++ "-") v]

/-- `determine_cc_license` only ever returns `"Unknown"` or a `CC`-prefixed
label. -/
theorem determine_cc_license_shape (url text : String) :
    determine_cc_license url text = "Unknown" ∨
    ∃ rest, determine_cc_license url text = "CC" ++ rest := by
  unfold determine_cc_license
  split
  · exact Or.inl rfl
  · cases hc : check_for_cc0 (pyLower url) (pyLower text) with
    | some s =>
      have hs : s = "CC0" := by
        unfold check_for_cc0 at hc
        split at hc
        · exact (Option.some.inj hc).symm
        · exact absurd hc (by simp)
      simp only [hc, hs]
      exact Or.inr ⟨"0", rfl⟩
    | none =>
      simp only [hc]
      cases hu : extract_license_from_url (pyLower url) with
      | some s =>
        simp only [hu]
        obtain ⟨v, _, hv⟩ := List.exists_of_findSome?_eq_some hu
        obtain ⟨t, _, ht⟩ := List.exists_of_findSome?_eq_some hv
        split at ht
        · rw [← Option.some.inj ht]
          exact Or.inr (cc_url_shape t v)
        · exact absurd ht (by simp)
      | none =>
        simp only [hu]
        cases ht : extract_license_from_text (pyLower text) with
        | some s =>
          simp only [ht]
          cases hm : patSearch ccPattern (pyLower text) with
          | none =>
            simp only [extract_license_from_text, hm] at ht
            exact Option.noConfusion ht
          | some m =>
            simp only [extract_license_from_text, hm] at ht
            split at ht
            · exact absurd ht (by simp)
            · rw [← Option.some.inj ht]
              exact Or.inr (cc_prefix_shape (process_cc_type_text m))
        | none =>
          refine Or.inl ?_
          simp only [ht]

/-- C9 counterexample: a short-circuit outcome (invalid URL) produced by the
batch scan carries `licenseType = None`, not a string label and not
`"Unknown"` — the field only becomes a string on the fully processed path. -/
theorem c9_counterexample :
    scan_websites demoInvalidOracles ["not a url"] =
      [ScanRecord.done { website := "not a url", invalidUrl := true }] ∧
    ({ website := "not a url", invalidUrl := true } : Result).licenseType =
      none := by
  refine ⟨by decide, rfl⟩

/-- C9 amended: in every non-failed record the batch scan produces,
`licenseType` is either `None` (all short-circuit outcomes: invalid URL,
robots block, empty or unparseable primary fetch) or a string that is
`"Unknown"` or a `CC`-prefixed label (the fully processed path). -/
theorem c9_license_type_shape (o : Oracles) (url : String) (r : Result)
    (h : process_website o url = .ok r) :
    r.licenseType = none ∨
    ∃ s, r.licenseType = some s ∧
      (s = "Unknown" ∨ ∃ rest, s = "CC" ++ rest) := by
  simp only [process_website] at h
  split at h
  · rw [← Except.ok.inj h]
    exact Or.inl rfl
  · split at h
    · rw [← Except.ok.inj h]
      exact Or.inl rfl
    · split at h
      · cases h
      · rw [← Except.ok.inj h]
        exact Or.inl rfl
      · rename_i body
        split at h
        · rw [← Except.ok.inj h]
          exact Or.inl rfl
        · split at h
          · rw [← Except.ok.inj h]
            exact Or.inl rfl
          · split at h
            · cases h
            · rw [← Except.ok.inj h]
              refine Or.inr ⟨_, rfl, ?_⟩
              split
              · exact determine_cc_license_shape _ _
              · exact determine_cc_license_shape _ _

/-- Witness for C9 amended, at the invalid-URL short circuit. -/
theorem c9_witness :
    ({ website := "not a url", invalidUrl := true } : Result).licenseType = none ∨
    ∃ s, ({ website := "not a url", invalidUrl := true } : Result).licenseType = some s ∧
      (s = "Unknown" ∨ ∃ rest, s = "CC" ++ rest) :=
  c9_license_type_shape demoInvalidOracles "not a url"
    { website := "not a url", invalidUrl := true } (by decide)

/-- `insertLink` preserves membership. -/
theorem insertLink_mem (s : List String) (u x : String) (hx : x ∈ s) :
    x ∈ insertLink s u := by
  unfold insertLink
  split
  · exact hx
  · exact List.mem_append_left _ hx

/-- The inserted element is a member. -/
theorem insertLink_self (s : List String) (u : String) : u ∈ insertLink s u := by
  unfold insertLink
  split
  · assumption
  · exact List.mem_append_right _ (List.mem_singleton.mpr rfl)

/-- Members of `insertLink s u` are old members or `u`. -/
theorem insertLink_spec (s : List String) (u x : String)
    (h : x ∈ insertLink s u) : x ∈ s ∨ x = u := by
  unfold insertLink at h
  split at h
  · exact Or.inl h
  · rcases List.mem_append.mp h with h | h
    · exact Or.inl h
    · exact Or.inr (List.mem_singleton.mp h)

/-- Once `license_link` is non-empty, the anchor loop never changes
`license_link` or `license_text` again. -/
theorem eflGo_stable (u : String → String → String) (base : String)
    (l : List Anchor) :
    ∀ (ll lt : String) (rls : List String), ll ≠ "" →
      (eflGo u base l ll lt rls).1 = ll ∧ (eflGo u base l ll lt rls).2.1 = lt := by
  induction l with
  | nil => intro ll lt rls _; exact ⟨rfl, rfl⟩
  | cons a rest ih =>
    intro ll lt rls h
    simp only [eflGo]
    split_ifs with h1 h2 h3
    · exact ih ll lt rls h
    · exact absurd h2.1 h
    · exact ih ll lt _ h
    · exact ih ll lt rls h

/-- The anchor loop only ever grows the relevant-link set. -/
theorem eflGo_mono (u : String → String → String) (base : String)
    (l : List Anchor) :
    ∀ (ll lt : String) (rls : List String) (x : String), x ∈ rls →
      x ∈ (eflGo u base l ll lt rls).2.2 := by
  induction l with
  | nil => intro ll lt rls x hx; exact hx
  | cons a rest ih =>
    intro ll lt rls x hx
    simp only [eflGo]
    split_ifs with h1 h2 h3
    · exact ih ll lt rls x hx
    · exact ih _ _ rls x hx
    · exact ih ll lt _ x (insertLink_mem _ _ _ hx)
    · exact ih ll lt rls x hx

/-- With `license_link` already set, every remaining anchor with a usable
href and a keyword-matching text contributes its absolute URL to the
relevant-link set. -/
theorem eflGo_keyword_tail (u : String → String → String) (base : String)
    (l : List Anchor) :
    ∀ (ll lt : String) (rls : List String) (a : Anchor), ll ≠ "" → a ∈ l →
      hrefD a ≠ "" →
      contains_keyword (pyStrip a.text) RELEVANT_LINKS_KEYWORDS = true →
      u base (hrefD a) ∈ (eflGo u base l ll lt rls).2.2 := by
  induction l with
  | nil => intro ll lt rls a _ ha; exact absurd ha (List.not_mem_nil a)
  | cons b rest ih =>
    intro ll lt rls a hll ha hhref hkw
    rcases List.mem_cons.mp ha with rfl | ha'
    · simp only [eflGo]
      split_ifs with h1 h2
      · exact absurd h1 hhref
      · exact absurd h2.1 hll
      · exact eflGo_mono u base rest ll lt _ _ (insertLink_self _ _)
    · simp only [eflGo]
      split_ifs with h1 h2 h3
      · exact ih ll lt rls a hll ha' hhref hkw
      · exact absurd h2.1 hll
      · exact ih ll lt _ a hll ha' hhref hkw
      · exact ih ll lt rls a hll ha' hhref hkw

/-- Everything the anchor loop adds to the relevant-link set comes from an
anchor with a usable href whose stripped text matches a relevant-link
keyword. -/
theorem eflGo_complete (u : String → String → String) (base : String)
    (l : List Anchor) :
    ∀ (ll lt : String) (rls : List String) (x : String),
      x ∈ (eflGo u base l ll lt rls).2.2 →
      x ∈ rls ∨ ∃ a, a ∈ l ∧ hrefD a ≠ "" ∧
        contains_keyword (pyStrip a.text) RELEVANT_LINKS_KEYWORDS = true ∧
        x = u base (hrefD a) := by
  induction l with
  | nil => intro ll lt rls x hx; exact Or.inl hx
  | cons b rest ih =>
    intro ll lt rls x
    simp only [eflGo]
    split_ifs with h1 h2 h3 <;> intro hx
    · rcases ih _ _ _ _ hx with h | ⟨a, ha, hr, hk, he⟩
      · exact Or.inl h
      · exact Or.inr ⟨a, List.mem_cons_of_mem b ha, hr, hk, he⟩
    · rcases ih _ _ _ _ hx with h | ⟨a, ha, hr, hk, he⟩
      · exact Or.inl h
      · exact Or.inr ⟨a, List.mem_cons_of_mem b ha, hr, hk, he⟩
    · rcases ih _ _ _ _ hx with h | ⟨a, ha, hr, hk, he⟩
      · rcases insertLink_spec _ _ _ h with h' | rfl
        · exact Or.inl h'
        · exact Or.inr ⟨b, List.mem_cons_self b rest, h1, h3, rfl⟩
      · exact Or.inr ⟨a, List.mem_cons_of_mem b ha, hr, hk, he⟩
    · rcases ih _ _ _ _ hx with h | ⟨a, ha, hr, hk, he⟩
      · exact Or.inl h
      · exact Or.inr ⟨a, List.mem_cons_of_mem b ha, hr, hk, he⟩

/-- Running the anchor loop over a prefix in which no usable anchor matches
a license pattern leaves `license_link` empty and only grows the
relevant-link set — by exactly the keyword-matching anchors of the
prefix. -/
theorem eflGo_prefix (u : String → String → String) (base : String)
    (pre : List Anchor) :
    ∀ (rest : List Anchor) (lt : String) (rls : List String),
      (∀ b ∈ pre, hrefD b ≠ "" →
        contains_pattern (pyStrip b.text) LICENSE_PATTERNS = false) →
      ∃ rls', eflGo u base (pre ++ rest) "" lt rls = eflGo u base rest "" lt rls' ∧
        (∀ x ∈ rls, x ∈ rls') ∧
        (∀ b ∈ pre, hrefD b ≠ "" →
          contains_keyword (pyStrip b.text) RELEVANT_LINKS_KEYWORDS = true →
          u base (hrefD b) ∈ rls') := by
  induction pre with
  | nil =>
    intro rest lt rls _
    exact ⟨rls, rfl, fun x hx => hx, by intro b hb; exact absurd hb (List.not_mem_nil b)⟩
  | cons b pre ih =>
    intro rest lt rls hpre
    have hpre' : ∀ c ∈ pre, hrefD c ≠ "" →
        contains_pattern (pyStrip c.text) LICENSE_PATTERNS = false :=
      fun c hc => hpre c (List.mem_cons_of_mem b hc)
    simp only [List.cons_append, eflGo]
    split_ifs with h1 h2 h3
    · obtain ⟨rls', heq, hmono, hadd⟩ := ih rest lt rls hpre'
      refine ⟨rls', heq, hmono, ?_⟩
      intro c hc hr hk
      rcases List.mem_cons.mp hc with rfl | hc'
      · exact absurd h1 hr
      · exact hadd c hc' hr hk
    · have hfalse := hpre b (List.mem_cons_self b pre) h1
      exact absurd h2.2 (by simp [hfalse])
    · obtain ⟨rls', heq, hmono, hadd⟩ :=
        ih rest lt (insertLink rls (u base (hrefD b))) hpre'
      refine ⟨rls', heq, fun x hx => hmono x (insertLink_mem _ _ _ hx), ?_⟩
      intro c hc hr hk
      rcases List.mem_cons.mp hc with rfl | hc'
      · exact hmono _ (insertLink_self _ _)
      · exact hadd c hc' hr hk
    · obtain ⟨rls', heq, hmono, hadd⟩ := ih rest lt rls hpre'
      refine ⟨rls', heq, hmono, ?_⟩
      intro c hc hr hk
      rcases List.mem_cons.mp hc with rfl | hc'
      · exact absurd hk (by simp [h3])
      · exact hadd c hc' hr hk

/-- C4 counterexample: a footer whose only anchor has text
`"MIT License terms"`.  The text matches the MIT license pattern *and*
contains the relevant-link keyword `terms`, but because the anchor is
captured as the license link the loop `continue`s past the keyword check —
`relevantLinks` stays empty, refuting "every anchor whose text contains a
relevant-link keyword is added to the relevantLinks set, including the
anchor already chosen as the license link". -/
theorem c4_counterexample :
    contains_keyword (pyStrip "MIT License terms") RELEVANT_LINKS_KEYWORDS = true ∧
    extract_footer_links (fun a b => a ++ b)
      [[{ href := some "/l", text := "MIT License terms" }]] "http://e.com" =
      ("http://e.com/l", "MIT License terms", []) := by
  refine ⟨by decide, by decide⟩

/-- C4 amended: the first usable anchor whose stripped text matches a
license pattern is captured as `licenseLink`/`licenseText` and no later
anchor overrides it; every *other* usable anchor whose text contains a
relevant-link keyword has its absolute URL added to `relevantLinks` — the
captured anchor itself is skipped (every member of `relevantLinks` comes
from a keyword-matching anchor processed by the keyword branch). -/
theorem c4_first_match_keyword_links (u : String → String → String)
    (doc : List (List Anchor)) (base : String) (pre post : List Anchor)
    (a0 : Anchor) (hbase : base ≠ "") (hne : ∀ h, u base h ≠ "")
    (hsplit : doc.flatten = pre ++ a0 :: post)
    (hpre : ∀ b ∈ pre, hrefD b ≠ "" →
      contains_pattern (pyStrip b.text) LICENSE_PATTERNS = false)
    (ha0 : hrefD a0 ≠ "")
    (hpat : contains_pattern (pyStrip a0.text) LICENSE_PATTERNS = true) :
    (extract_footer_links u doc base).1 = u base (hrefD a0) ∧
    (extract_footer_links u doc base).2.1 = pyStrip a0.text ∧
    (∀ b ∈ pre, hrefD b ≠ "" →
      contains_keyword (pyStrip b.text) RELEVANT_LINKS_KEYWORDS = true →
      u base (hrefD b) ∈ (extract_footer_links u doc base).2.2) ∧
    (∀ b ∈ post, hrefD b ≠ "" →
      contains_keyword (pyStrip b.text) RELEVANT_LINKS_KEYWORDS = true →
      u base (hrefD b) ∈ (extract_footer_links u doc base).2.2) ∧
    (∀ x ∈ (extract_footer_links u doc base).2.2,
      ∃ a, a ∈ doc.flatten ∧ hrefD a ≠ "" ∧
        contains_keyword (pyStrip a.text) RELEVANT_LINKS_KEYWORDS = true ∧
        x = u base (hrefD a)) := by
  have hbase_efl : extract_footer_links u doc base =
      eflGo u base doc.flatten "" "" [] := by
    unfold extract_footer_links
    rw [if_neg hbase]
  obtain ⟨rls', heq, hmono, hadd⟩ := eflGo_prefix u base pre (a0 :: post) "" [] hpre
  have hstep : eflGo u base (a0 :: post) "" "" rls' =
      eflGo u base post (u base (hrefD a0)) (pyStrip a0.text) rls' := by
    simp only [eflGo]
    rw [if_neg ha0, if_pos ⟨trivial, hpat⟩]
  have hall : extract_footer_links u doc base =
      eflGo u base post (u base (hrefD a0)) (pyStrip a0.text) rls' := by
    rw [hbase_efl, hsplit, heq, hstep]
  have hll : u base (hrefD a0) ≠ "" := hne (hrefD a0)
  refine ⟨?_, ?_, ?_, ?_, ?_⟩
  · rw [hall]
    exact (eflGo_stable u base post _ _ rls' hll).1
  · rw [hall]
    exact (eflGo_stable u base post _ _ rls' hll).2
  · intro b hb hr hk
    rw [hall]
    exact eflGo_mono u base post _ _ rls' _ (hadd b hb hr hk)
  · intro b hb hr hk
    rw [hall]
    exact eflGo_keyword_tail u base post _ _ rls' b hll hb hr hk
  · intro x hx
    rw [hbase_efl] at hx
    rcases eflGo_complete u base doc.flatten "" "" [] x hx with h | h
    · exact absurd h (List.not_mem_nil x)
    · exact h

/-- Witness for C4 amended: a pattern-matching anchor between two others. -/
theorem c4_witness :
    (extract_footer_links (fun a b => a ++ b)
      [[{ href := some "/about", text := "About us" }],
       [{ href := some "/l", text := "MIT License" },
        { href := some "/t", text := "Terms of use" }]] "http://e.com").1 =
      "http://e.com/l" ∧
    "http://e.com/t" ∈
      (extract_footer_links (fun a b => a ++ b)
        [[{ href := some "/about", text := "About us" }],
         [{ href := some "/l", text := "MIT License" },
          { href := some "/t", text := "Terms of use" }]] "http://e.com").2.2 := by
  have hne : ∀ h : String, (fun a b => a ++ b) "http://e.com" h ≠ "" := by
    intro h hc
    have hlen := congrArg String.length hc
    rw [String.length_append] at hlen
    rw [show ("http://e.com" : String).length = 12 from by decide] at hlen
    rw [show ("" : String).length = 0 from rfl] at hlen
    omega
  have H := c4_first_match_keyword_links (fun a b => a ++ b)
    [[{ href := some "/about", text := "About us" }],
     [{ href := some "/l", text := "MIT License" },
      { href := some "/t", text := "Terms of use" }]] "http://e.com"
    [{ href := some "/about", text := "About us" }]
    [{ href := some "/t", text := "Terms of use" }]
    { href := some "/l", text := "MIT License" }
    (by decide) hne (by decide) (by decide) (by decide) (by decide)
  refine ⟨H.1.trans (by decide), ?_⟩
  have hm := H.2.2.2.1 { href := some "/t", text := "Terms of use" }
    (List.mem_singleton.mpr rfl) (by decide) (by decide)
  have he : (fun a b => a ++ b) "http://e.com"
      (hrefD { href := some "/t", text := "Terms of use" }) = "http://e.com/t" := by
    decide
  exact he ▸ hm

/-- C10: the relevant-link keyword list Python builds contains the fused
token `licensinguse` (the source's adjacent string literals `"licensing"`
`"use"` concatenate) and not the separate keywords `licensing` or `use`;
a footer-anchor text containing `use` or `licensing` but none of the six
actual keywords matches no keyword, and since every member of
`relevantLinks` comes from a keyword-matching anchor, such an anchor is
never added. -/
theorem c10_fused_keyword :
    RELEVANT_LINKS_KEYWORDS =
      ["terms", "legal", "license", "licensinguse", "policy", "copyright"] ∧
    (∀ text : String,
      strContains (pyLower text) "use" = true ∨
        strContains (pyLower text) "licensing" = true →
      (∀ kw ∈ RELEVANT_LINKS_KEYWORDS, strContains (pyLower text) kw = false) →
      contains_keyword text RELEVANT_LINKS_KEYWORDS = false) ∧
    (∀ (u : String → String → String) (doc : List (List Anchor)) (base x : String),
      x ∈ (extract_footer_links u doc base).2.2 →
      ∃ a, a ∈ doc.flatten ∧
        contains_keyword (pyStrip a.text) RELEVANT_LINKS_KEYWORDS = true ∧
        x = u base (hrefD a)) := by
  refine ⟨rfl, ?_, ?_⟩
  · intro text _ hnone
    unfold contains_keyword
    split
    · rfl
    · have h1 := hnone "terms" (by decide)
      have h2 := hnone "legal" (by decide)
      have h3 := hnone "license" (by decide)
      have h4 := hnone "licensinguse" (by decide)
      have h5 := hnone "policy" (by decide)
      have h6 := hnone "copyright" (by decide)
      simp only [RELEVANT_LINKS_KEYWORDS, List.any_cons, List.any_nil, Bool.or_false]
      rw [show pyLower "terms" = "terms" from by decide,
        show pyLower "legal" = "legal" from by decide,
        show pyLower "license" = "license" from by decide,
        show pyLower "licensinguse" = "licensinguse" from by decide,
        show pyLower "policy" = "policy" from by decide,
        show pyLower "copyright" = "copyright" from by decide,
        h1, h2, h3, h4, h5, h6]
      rfl
  · intro u doc base x hx
    by_cases hbase : base = ""
    · unfold extract_footer_links at hx
      rw [if_pos hbase] at hx
      exact absurd hx (List.not_mem_nil x)
    · unfold extract_footer_links at hx
      rw [if_neg hbase] at hx
      rcases eflGo_complete u base doc.flatten "" "" [] x hx with h | ⟨a, ha, _, hk, he⟩
      · exact absurd h (List.not_mem_nil x)
      · exact ⟨a, ha, hk, he⟩

/-- Witness for C10: a text containing `use` but no actual keyword is no
relevant link. -/
theorem c10_witness :
    contains_keyword "Use of cookies" RELEVANT_LINKS_KEYWORDS = false :=
  c10_fused_keyword.2.1 "Use of cookies" (Or.inl (by decide)) (by decide)

end LC
